import Mathlib

/-!
Shallow embedding of the Hardhat Solidity compiler invokers
(`packages/hardhat-core/src/internal/solidity/compiler/index.ts`) and of the
`hardhat-verify` chain-resolution collaborator, together with theorems that
check the specification's claims against the embedded code.

Host-environment behaviour (the Node module system, `require`, `JSON.parse`,
`JSON.stringify`, the spawned process) is passed in as explicit parameters or
state, so every definition stays executable while the theorems quantify over
all environment behaviours.
-/

set_option autoImplicit false

/-- Structured JSON-like documents: the opaque `CompilerInput` and
`CompilerOutput` values that the invokers serialize and parse but never
inspect. -/
inductive Json where
  | null : Json
  | bool (b : Bool) : Json
  | num (n : Int) : Json
  | str (s : String) : Json
  | arr (elems : List Json) : Json
  | obj (fields : List (String × Json)) : Json

/-- Error descriptors from `ERRORS.SOLC` that this code raises. -/
inductive ErrorKind where
  | CANT_RUN_NATIVE_COMPILER
deriving DecidableEq

/-- JavaScript exception values as they cross this code: either a bare
error (process error, parse error, load error, ...) or a `HardhatError`
built from a descriptor and a parent (cause) error. -/
inductive JsError where
  | raw (message : String) : JsError
  | hardhat (kind : ErrorKind) (parent : JsError) : JsError
deriving DecidableEq

/-- Cause chain of an error: a `HardhatError` carries its parent error. -/
def JsError.cause : JsError → Option JsError
  | .raw _ => none
  | .hardhat _ p => some p

/-- True when the error is a `HardhatError` wrapper rather than a bare error. -/
def JsError.isWrapped : JsError → Bool
  | .raw _ => false
  | .hardhat _ _ => true

/-- Plain `major.minor.patch` semantic versions, the domain of the version
strings the `NativeCompiler` gates on. -/
structure SemVer where
  major : Nat
  minor : Nat
  patch : Nat
deriving DecidableEq

/-- Comparison `semver.gte a b` on plain `major.minor.patch` versions:
lexicographic on the three components. -/
def semverGte (a b : SemVer) : Bool :=
  if a.major = b.major then
    (if a.minor = b.minor then decide (b.patch ≤ a.patch)
     else decide (b.minor < a.minor))
  else decide (b.major < a.major)

/-- Filesystem state as seen by this code: the set of directories that
exist, recorded as a list. -/
structure FS where
  dirs : List String
deriving DecidableEq

/-- Model of `fs.mkdirSync(p, { recursive: true })`: afterwards the
directory exists; creating an existing directory is harmless. -/
def FS.mkdirRecursive (fs : FS) (p : String) : FS := ⟨p :: fs.dirs⟩

/-- Whether a directory exists in the filesystem state. -/
def FS.dirExists (fs : FS) (p : String) : Bool := fs.dirs.contains p

/-- Argument-construction phase of `NativeCompiler.compile` (`index.ts`
lines 77-92): the list starts as `["--standard-json"]`; if a version is
known and is `>= 0.8.22` the code pushes `--no-import-callback`; otherwise
if it is `>= 0.6.9` the code creates `path.join(os.tmpdir(), "hardhat-solc")`
recursively and pushes `--base-path` followed by that folder; otherwise
nothing more is pushed.  Returns the argument list and the filesystem state
after the optional `mkdirSync`. -/
def nativeCompilerArgs (tmpdir : String) (solcVersion : Option SemVer) (fs : FS) :
    List String × FS :=
  match solcVersion with
  | none => (["--standard-json"], fs)
  | some v =>
    if semverGte v ⟨0, 8, 22⟩ then
      (["--standard-json", "--no-import-callback"], fs)
    else if semverGte v ⟨0, 6, 9⟩ then
      (["--standard-json", "--base-path", tmpdir ++ "/hardhat-solc"],
        fs.mkdirRecursive (tmpdir ++ "/hardhat-solc"))
    else
      (["--standard-json"], fs)

/-- Observable behaviour of one `execFile` spawn attempt: the setup code
inside the `try` block throws synchronously, or the process finishes with a
non-null callback error, or the process finishes and yields its captured
standard output. -/
inductive SpawnBehavior where
  | setupThrow (e : JsError)
  | exitError (e : JsError)
  | exited (stdout : String)

/-- Invoker for a native compiler executable: location plus the optional
version used to select CLI behaviour, both fixed at construction. -/
structure NativeCompiler where
  pathToSolc : String
  solcVersion : Option SemVer

/-- Process phase of `NativeCompiler.compile` (`index.ts` lines 94-117):
a synchronous throw while setting up the spawn is caught and wrapped into
`HardhatError(ERRORS.SOLC.CANT_RUN_NATIVE_COMPILER, {}, e)`; a non-null
callback error rejects the promise with that bare error; on success the
captured output text is handed to `JSON.parse`. -/
def nativeRun (behavior : SpawnBehavior) (parse : String → Except JsError Json) :
    Except JsError Json :=
  match behavior with
  | .setupThrow e => .error (.hardhat .CANT_RUN_NATIVE_COMPILER e)
  | .exitError e => .error e
  | .exited stdout => parse stdout

/-- Whole `NativeCompiler.compile`: build the version-gated argument list
(creating the base-path directory when needed), spawn the executable on
those arguments feeding it the serialized input, and treat the outcome as
in `nativeRun`.  The `spawn` parameter models the environment: it maps the
executable path, the arguments and the text written to stdin to the
observable behaviour of the process. -/
def NativeCompiler.compile (nc : NativeCompiler) (tmpdir : String)
    (spawn : String → List String → String → SpawnBehavior)
    (stringify : Json → String) (parse : String → Except JsError Json)
    (input : Json) (fs : FS) : Except JsError Json × FS :=
  match nativeCompilerArgs tmpdir nc.solcVersion fs with
  | (args, fs1) => (nativeRun (spawn nc.pathToSolc args (stringify input)) parse, fs1)

/-- Sources loaded from the compiler bundle file, as handed to
`solc/wrapper`; their content is irrelevant to this code, so they are
identified by a number. -/
abbrev SolcSources := Nat

/-- Loaded compiler handle: the bundle's synchronous compile entry point,
mapping the serialized request text to the response text or throwing. -/
structure Solc where
  compileFn : String → Except JsError String

/-- Module-loading hooks installable in `Module._extensions`: either some
pre-existing instrumentation hook of the host (babel/register and the
like), or the minimal read-and-compile loader that
`Compiler._loadCompilerSources` installs temporarily. -/
inductive Hook where
  | externalHook (id : Nat)
  | rawDirectLoader
deriving DecidableEq

/-- Process-wide module system state: `Module._extensions` may itself be
undefined (when Hardhat is bundled, e.g. in the vscode extension);
otherwise it is a table from file extensions to hooks. -/
structure ModuleState where
  extensions : Option (List (String × Hook))
deriving DecidableEq

/-- Lookup of `Module._extensions[ext]` in a defined extensions table. -/
def getExtension : List (String × Hook) → String → Option Hook
  | [], _ => none
  | (e, h) :: rest, ext => if e = ext then some h else getExtension rest ext

/-- Assignment `Module._extensions[ext] = hk` for a present hook: replace
the first binding of `ext`, or append a new one. -/
def setExtensionSome : List (String × Hook) → String → Hook → List (String × Hook)
  | [], ext, hk => [(ext, hk)]
  | (e, h0) :: rest, ext, hk =>
    if e = ext then (e, hk) :: rest else (e, h0) :: setExtensionSome rest ext hk

/-- Removal of every binding of `ext` from the extensions table. -/
def removeExtension : List (String × Hook) → String → List (String × Hook)
  | [], _ => []
  | (e, h0) :: rest, ext =>
    if e = ext then removeExtension rest ext
    else (e, h0) :: removeExtension rest ext

/-- Assignment `Module._extensions[ext] = h` where `h` may be undefined;
assigning undefined is modelled as removing the binding, which is
lookup-equivalent. -/
def setExtension (exts : List (String × Hook)) (ext : String) :
    Option Hook → List (String × Hook)
  | none => removeExtension exts ext
  | some hk => setExtensionSome exts ext hk

/-- Extension the temporary loader is installed for. -/
def jsExt : String := ".js"

/-- Behavioural lookup of the `.js` (or any) hook through the optional
extensions table. -/
def ModuleState.extLookup (st : ModuleState) (ext : String) : Option Hook :=
  match st.extensions with
  | none => none
  | some exts => getExtension exts ext

/-- Invoker for the in-process compiler bundle: its location, fixed at
construction. -/
structure Compiler where
  pathToSolcJs : String

/-- Mutable state of a `Compiler` instance together with the process-wide
module state it acts on; `loadCount` instruments how many underlying
`require(compilerPath)` loads have been attempted. -/
structure CompilerState where
  loadedSolc : Option Solc
  modState : ModuleState
  loadCount : Nat

/-- Embedding of `Compiler._loadCompilerSources` (`index.ts` lines 45-70):
if `Module._extensions` is undefined, fall back to a plain `require`;
otherwise save the previous `.js` hook, install the raw direct loader,
`require` the bundle, assign the previous hook back, and return the loaded
sources.  The assignment back happens only after a *successful* `require`:
the source has no try/finally, so a throwing `require` propagates with the
temporary hook still installed.  The `req` parameter models `require`,
given the requested path and the currently effective `.js` hook. -/
def loadCompilerSources (req : String → Option Hook → Except JsError SolcSources)
    (compilerPath : String) (st : ModuleState) :
    Except JsError SolcSources × ModuleState :=
  match st.extensions with
  | none => (req compilerPath none, st)
  | some exts =>
    let previousHook := getExtension exts jsExt
    let exts1 := setExtensionSome exts jsExt Hook.rawDirectLoader
    match req compilerPath (some Hook.rawDirectLoader) with
    | .error e => (.error e, ⟨some exts1⟩)
    | .ok srcs => (.ok srcs, ⟨some (setExtension exts1 jsExt previousHook)⟩)

/-- Embedding of `Compiler.getSolc` (`index.ts` lines 26-37): return the
cached handle if present; otherwise load the bundle sources, wrap them with
`solc/wrapper` (the `wrap` parameter), cache and return the result.  A
throwing load propagates and leaves the cache empty. -/
def Compiler.getSolc (req : String → Option Hook → Except JsError SolcSources)
    (wrap : SolcSources → Solc) (c : Compiler) (st : CompilerState) :
    Except JsError Solc × CompilerState :=
  match st.loadedSolc with
  | some s => (.ok s, st)
  | none =>
    match loadCompilerSources req c.pathToSolcJs st.modState with
    | (.error e, mst1) => (.error e, ⟨none, mst1, st.loadCount + 1⟩)
    | (.ok srcs, mst1) => (.ok (wrap srcs), ⟨some (wrap srcs), mst1, st.loadCount + 1⟩)

/-- Embedding of `Compiler.compile` (`index.ts` lines 19-24): obtain the
handle via `getSolc`, call its compile entry point on the serialized input
and parse the returned text; every failure propagates unchanged. -/
def Compiler.compile (req : String → Option Hook → Except JsError SolcSources)
    (wrap : SolcSources → Solc) (stringify : Json → String)
    (parse : String → Except JsError Json) (c : Compiler) (input : Json)
    (st : CompilerState) : Except JsError Json × CompilerState :=
  match Compiler.getSolc req wrap c st with
  | (.error e, st1) => (.error e, st1)
  | (.ok solc, st1) =>
    match solc.compileFn (stringify input) with
    | .error e => (.error e, st1)
    | .ok txt => (parse txt, st1)

/-- State after `n` sequential `getSolc` calls on one instance. -/
def Compiler.stateAfterGetSolcCalls (req : String → Option Hook → Except JsError SolcSources)
    (wrap : SolcSources → Solc) (c : Compiler) (st : CompilerState) : Nat → CompilerState
  | 0 => st
  | n + 1 =>
    (Compiler.getSolc req wrap c (Compiler.stateAfterGetSolcCalls req wrap c st n)).2

/-- State after `n` sequential `compile` calls on one instance, on the
input sequence `inputs`. -/
def Compiler.stateAfterCompileCalls (req : String → Option Hook → Except JsError SolcSources)
    (wrap : SolcSources → Solc) (stringify : Json → String)
    (parse : String → Except JsError Json) (c : Compiler) (inputs : Nat → Json)
    (st : CompilerState) : Nat → CompilerState
  | 0 => st
  | n + 1 =>
    (Compiler.compile req wrap stringify parse c (inputs n)
      (Compiler.stateAfterCompileCalls req wrap stringify parse c inputs st n)).2

/-- Helper: no temporary base-path value can collide with the
`--no-import-callback` flag, since it always ends in `/hardhat-solc`. -/
theorem append_hardhat_solc_ne_flag (s : String) :
    s ++ "/hardhat-solc" ≠ "--no-import-callback" := by
  intro h
  have hdata : s.data ++ ("/hardhat-solc" : String).data
      = ("--no-import-callback" : String).data := by
    rw [← String.data_append, h]
  have hlast := congrArg List.getLast? hdata
  rw [List.getLast?_append_of_ne_nil s.data (by decide)] at hlast
  exact absurd hlast (by decide)

/-- C1: version gating of the native argument list.  With version `0.8.22`
the arguments contain `--no-import-callback` and no `--base-path`; with
version `0.7.0` they are exactly `--standard-json --base-path <tmp>` where
`<tmp>` exists in the resulting filesystem, and contain no
`--no-import-callback`; with version `0.5.0`, or no version, the arguments
are exactly `["--standard-json"]`. -/
theorem nativeCompiler_args_version_gating (tmpdir : String) (fs : FS) :
    ("--no-import-callback" ∈ (nativeCompilerArgs tmpdir (some ⟨0, 8, 22⟩) fs).1
      ∧ "--base-path" ∉ (nativeCompilerArgs tmpdir (some ⟨0, 8, 22⟩) fs).1)
    ∧ ((nativeCompilerArgs tmpdir (some ⟨0, 7, 0⟩) fs).1
        = ["--standard-json", "--base-path", tmpdir ++ "/hardhat-solc"]
      ∧ (nativeCompilerArgs tmpdir (some ⟨0, 7, 0⟩) fs).2.dirExists
          (tmpdir ++ "/hardhat-solc") = true
      ∧ "--no-import-callback" ∉ (nativeCompilerArgs tmpdir (some ⟨0, 7, 0⟩) fs).1)
    ∧ (nativeCompilerArgs tmpdir (some ⟨0, 5, 0⟩) fs).1 = ["--standard-json"]
    ∧ (nativeCompilerArgs tmpdir none fs).1 = ["--standard-json"] := by
  have h822 : nativeCompilerArgs tmpdir (some ⟨0, 8, 22⟩) fs
      = (["--standard-json", "--no-import-callback"], fs) := rfl
  have h070 : nativeCompilerArgs tmpdir (some ⟨0, 7, 0⟩) fs
      = (["--standard-json", "--base-path", tmpdir ++ "/hardhat-solc"],
          fs.mkdirRecursive (tmpdir ++ "/hardhat-solc")) := rfl
  refine ⟨⟨?_, ?_⟩, ⟨?_, ?_, ?_⟩, rfl, rfl⟩
  · rw [h822]
    show "--no-import-callback" ∈ ["--standard-json", "--no-import-callback"]
    decide
  · rw [h822]
    show "--base-path" ∉ ["--standard-json", "--no-import-callback"]
    decide
  · rw [h070]
  · rw [h070]; simp [FS.mkdirRecursive, FS.dirExists]
  · rw [h070]
    intro hmem
    rcases List.mem_cons.mp hmem with h | hmem
    · exact absurd h (by decide)
    rcases List.mem_cons.mp hmem with h | hmem
    · exact absurd h (by decide)
    rcases List.mem_cons.mp hmem with h | hmem
    · exact append_hardhat_solc_ne_flag tmpdir h.symm
    · exact absurd hmem (List.not_mem_nil _)

/-- C10: for every version (or none), the constructed argument list starts
with `--standard-json`, and it never contains both `--no-import-callback`
and `--base-path`: the two version-gated mechanisms are mutually
exclusive. -/
theorem nativeCompiler_args_invariant (tmpdir : String) (v : Option SemVer) (fs : FS) :
    (nativeCompilerArgs tmpdir v fs).1.head? = some "--standard-json"
    ∧ ¬("--no-import-callback" ∈ (nativeCompilerArgs tmpdir v fs).1
        ∧ "--base-path" ∈ (nativeCompilerArgs tmpdir v fs).1) := by
  cases v with
  | none =>
    refine ⟨rfl, ?_⟩
    show ¬("--no-import-callback" ∈ ["--standard-json"]
        ∧ "--base-path" ∈ ["--standard-json"])
    decide
  | some sv =>
    cases h1 : semverGte sv ⟨0, 8, 22⟩ with
    | true =>
      have he : nativeCompilerArgs tmpdir (some sv) fs
          = (["--standard-json", "--no-import-callback"], fs) := by
        simp [nativeCompilerArgs, h1]
      rw [he]
      refine ⟨rfl, ?_⟩
      show ¬("--no-import-callback" ∈ ["--standard-json", "--no-import-callback"]
          ∧ "--base-path" ∈ ["--standard-json", "--no-import-callback"])
      decide
    | false =>
      cases h2 : semverGte sv ⟨0, 6, 9⟩ with
      | true =>
        have he : nativeCompilerArgs tmpdir (some sv) fs
            = (["--standard-json", "--base-path", tmpdir ++ "/hardhat-solc"],
                fs.mkdirRecursive (tmpdir ++ "/hardhat-solc")) := by
          simp [nativeCompilerArgs, h1, h2]
        rw [he]
        refine ⟨rfl, ?_⟩
        rintro ⟨hmem, -⟩
        rcases List.mem_cons.mp hmem with h | hmem
        · exact absurd h (by decide)
        rcases List.mem_cons.mp hmem with h | hmem
        · exact absurd h (by decide)
        rcases List.mem_cons.mp hmem with h | hmem
        · exact append_hardhat_solc_ne_flag tmpdir h.symm
        · exact absurd hmem (List.not_mem_nil _)
      | false =>
        have he : nativeCompilerArgs tmpdir (some sv) fs = (["--standard-json"], fs) := by
          simp [nativeCompilerArgs, h1, h2]
        rw [he]
        refine ⟨rfl, ?_⟩
        show ¬("--no-import-callback" ∈ ["--standard-json"]
            ∧ "--base-path" ∈ ["--standard-json"])
        decide

/-- Unfolding of `NativeCompiler.compile` into its argument phase and its
process phase. -/
theorem NativeCompiler.compile_eq (nc : NativeCompiler) (tmpdir : String)
    (spawn : String → List String → String → SpawnBehavior)
    (stringify : Json → String) (parse : String → Except JsError Json)
    (input : Json) (fs : FS) :
    NativeCompiler.compile nc tmpdir spawn stringify parse input fs
      = (nativeRun
          (spawn nc.pathToSolc (nativeCompilerArgs tmpdir nc.solcVersion fs).1
            (stringify input)) parse,
         (nativeCompilerArgs tmpdir nc.solcVersion fs).2) := rfl

/-- Serializer used for concrete instances: the invokers never look inside
the produced text. -/
def stringifyW : Json → String := fun _ => "serialized-input"

/-- Parser used for concrete instances: wraps the received text as a JSON
string. -/
def parseW : String → Except JsError Json := fun s => .ok (.str s)

/-- Spawn behaviour for concrete instances: the process exits with an
error reported through the `execFile` callback. -/
def spawnExitErrW : String → List String → String → SpawnBehavior :=
  fun _ _ _ => SpawnBehavior.exitError (JsError.raw "solc exited with code 1")

/-- Spawn behaviour for concrete instances: setting up the spawn throws. -/
def spawnThrowW : String → List String → String → SpawnBehavior :=
  fun _ _ _ => SpawnBehavior.setupThrow (JsError.raw "ENOENT")

/-- C5 (counterexample): with a process that exits erroring, the native
`compile` rejects with the *bare* process error, which is not a
`HardhatError` wrapper and carries no cause, contradicting the claim that
the error is wrapped into a CompilerExecutionError. -/
theorem nativeCompiler_exit_error_not_wrapped_cex :
    (NativeCompiler.compile ⟨"/usr/bin/solc", none⟩ "/tmp" spawnExitErrW
        stringifyW parseW Json.null ⟨[]⟩).1
      = .error (.raw "solc exited with code 1")
    ∧ (JsError.raw "solc exited with code 1").isWrapped = false
    ∧ (JsError.raw "solc exited with code 1").cause = none :=
  ⟨rfl, rfl, rfl⟩

/-- C5 (amended): when the spawned native compiler process exits with a
non-zero or erroring exit, `NativeCompiler.compile` rejects with the bare
underlying process error itself, unwrapped; only spawn-setup exceptions
receive the HardhatError wrapping. -/
theorem nativeCompiler_exit_error_bare (nc : NativeCompiler) (tmpdir : String)
    (spawn : String → List String → String → SpawnBehavior)
    (stringify : Json → String) (parse : String → Except JsError Json)
    (input : Json) (fs : FS) (e : JsError)
    (h : spawn nc.pathToSolc (nativeCompilerArgs tmpdir nc.solcVersion fs).1
          (stringify input) = .exitError e) :
    (NativeCompiler.compile nc tmpdir spawn stringify parse input fs).1 = .error e := by
  rw [NativeCompiler.compile_eq, h]
  rfl

/-- Witness for the amended C5 theorem at a concrete instance. -/
theorem nativeCompiler_exit_error_bare_witness :
    (NativeCompiler.compile ⟨"/usr/bin/solc", some ⟨0, 5, 0⟩⟩ "/tmp" spawnExitErrW
        stringifyW parseW (Json.str "req") ⟨[]⟩).1
      = .error (.raw "solc exited with code 1") :=
  nativeCompiler_exit_error_bare _ _ _ _ _ _ _ _ rfl

/-- C6: any exception raised while setting up the native compiler spawn
makes `NativeCompiler.compile` fail with the dedicated
`CANT_RUN_NATIVE_COMPILER` HardhatError kind, and the original underlying
error is retrievable as its cause. -/
theorem nativeCompiler_setup_throw_wrapped (nc : NativeCompiler) (tmpdir : String)
    (spawn : String → List String → String → SpawnBehavior)
    (stringify : Json → String) (parse : String → Except JsError Json)
    (input : Json) (fs : FS) (e : JsError)
    (h : spawn nc.pathToSolc (nativeCompilerArgs tmpdir nc.solcVersion fs).1
          (stringify input) = .setupThrow e) :
    (NativeCompiler.compile nc tmpdir spawn stringify parse input fs).1
      = .error (.hardhat .CANT_RUN_NATIVE_COMPILER e)
    ∧ (JsError.hardhat .CANT_RUN_NATIVE_COMPILER e).cause = some e := by
  rw [NativeCompiler.compile_eq, h]
  exact ⟨rfl, rfl⟩

/-- Witness for the C6 theorem at a concrete instance: a missing
executable error gets wrapped and stays retrievable. -/
theorem nativeCompiler_setup_throw_wrapped_witness :
    (NativeCompiler.compile ⟨"/missing/solc", none⟩ "/tmp" spawnThrowW
        stringifyW parseW Json.null ⟨[]⟩).1
      = .error (.hardhat .CANT_RUN_NATIVE_COMPILER (.raw "ENOENT"))
    ∧ (JsError.hardhat .CANT_RUN_NATIVE_COMPILER (.raw "ENOENT")).cause
        = some (.raw "ENOENT") :=
  nativeCompiler_setup_throw_wrapped _ _ _ _ _ _ _ _ rfl

/-- Lookup after installing a hook: the installed key answers the new
hook, every other key is untouched. -/
theorem getExtension_setSome (exts : List (String × Hook)) (k : String) (v : Hook)
    (k' : String) :
    getExtension (setExtensionSome exts k v) k'
      = if k' = k then some v else getExtension exts k' := by
  induction exts with
  | nil =>
    simp only [setExtensionSome, getExtension]
    by_cases h : k' = k
    · subst h; simp
    · rw [if_neg (fun hh => h hh.symm), if_neg h]
  | cons q rest ih =>
    obtain ⟨e, h0⟩ := q
    by_cases he : e = k
    · subst he
      simp only [setExtensionSome, if_pos rfl, getExtension]
      by_cases h2 : k' = e
      · subst h2; simp
      · rw [if_neg (fun hh => h2 hh.symm), if_neg h2, if_neg (fun hh => h2 hh.symm)]
    · simp only [setExtensionSome, if_neg he, getExtension, ih]
      by_cases h2 : e = k'
      · subst h2
        simp [he]
      · by_cases h3 : k' = k
        · subst h3; simp [h2, he]
        · simp [h2, h3]

/-- Lookup after removing a key: the removed key answers nothing, every
other key is untouched. -/
theorem getExtension_remove (exts : List (String × Hook)) (k k' : String) :
    getExtension (removeExtension exts k) k'
      = if k' = k then none else getExtension exts k' := by
  induction exts with
  | nil => simp [removeExtension, getExtension]
  | cons q rest ih =>
    obtain ⟨e, h0⟩ := q
    simp only [removeExtension]
    by_cases he : e = k
    · subst he
      rw [if_pos rfl, ih]
      by_cases h2 : k' = e
      · simp [h2]
      · simp only [if_neg h2, getExtension]
        exact (if_neg (fun hh : e = k' => h2 hh.symm)).symm
    · rw [if_neg he]
      simp only [getExtension, ih]
      by_cases h2 : e = k'
      · subst h2
        simp [he]
      · by_cases h3 : k' = k
        · subst h3; simp [h2, he]
        · simp [h2, h3]

/-- Saving the hook for a key, overwriting it, and assigning the saved
value back leaves every lookup as it was. -/
theorem restore_lookup (exts : List (String × Hook)) (k : String) (v : Hook)
    (ext : String) :
    getExtension (setExtension (setExtensionSome exts k v) k (getExtension exts k)) ext
      = getExtension exts ext := by
  cases hprev : getExtension exts k with
  | none =>
    simp only [setExtension]
    rw [getExtension_remove]
    by_cases h : ext = k
    · rw [if_pos h, h, hprev]
    · rw [if_neg h, getExtension_setSome, if_neg h]
  | some q =>
    simp only [setExtension]
    rw [getExtension_setSome, getExtension_setSome]
    by_cases h : ext = k
    · rw [if_pos h, h]
      exact hprev.symm
    · rw [if_neg h, if_neg h]

/-- C7: when the host has no hook-override mechanism (`Module._extensions`
is undefined), the guarded load is a plain `require` of the bundle and the
module state comes back exactly as it went in: no hook mutation at all. -/
theorem loadCompilerSources_plain_require_when_no_extensions
    (req : String → Option Hook → Except JsError SolcSources) (compilerPath : String) :
    loadCompilerSources req compilerPath ⟨none⟩ = (req compilerPath none, ⟨none⟩) := rfl

/-- Require behaviour for concrete instances: loading the bundle fails. -/
def reqFailW : String → Option Hook → Except JsError SolcSources :=
  fun _ _ => .error (.raw "bundle load failed")

/-- Require behaviour for concrete instances: loading the bundle succeeds
with sources number 7. -/
def reqOkW : String → Option Hook → Except JsError SolcSources :=
  fun _ _ => .ok 7

/-- C2 (counterexample): with a pre-installed `.js` hook and a `require`
that throws, the guarded load comes back with the temporary raw loader
still installed instead of the previous hook: the restore does not happen
on failure. -/
theorem loadCompilerSources_no_restore_on_failure_cex :
    (loadCompilerSources reqFailW "/path/solc.js"
        ⟨some [(".js", Hook.externalHook 0)]⟩).2.extLookup jsExt
      = some Hook.rawDirectLoader
    ∧ ModuleState.extLookup ⟨some [(".js", Hook.externalHook 0)]⟩ jsExt
        = some (Hook.externalHook 0)
    ∧ Hook.rawDirectLoader ≠ Hook.externalHook 0 :=
  ⟨rfl, rfl, by decide⟩

/-- C2 (amended): when `Module._extensions` exists, a guarded load whose
underlying `require` succeeds restores the previous `.js` hook
immediately, leaving every extension's hook as it was; when the underlying
`require` throws, the error propagates but the temporary raw loader stays
installed for `.js` (the source has no try/finally). -/
theorem loadCompilerSources_hook_restore
    (req : String → Option Hook → Except JsError SolcSources) (compilerPath : String)
    (exts : List (String × Hook)) :
    (∀ srcs, req compilerPath (some Hook.rawDirectLoader) = .ok srcs →
        (loadCompilerSources req compilerPath ⟨some exts⟩).1 = .ok srcs
        ∧ ∀ ext, (loadCompilerSources req compilerPath ⟨some exts⟩).2.extLookup ext
            = ModuleState.extLookup ⟨some exts⟩ ext)
    ∧ (∀ e, req compilerPath (some Hook.rawDirectLoader) = .error e →
        (loadCompilerSources req compilerPath ⟨some exts⟩).1 = .error e
        ∧ (loadCompilerSources req compilerPath ⟨some exts⟩).2.extLookup jsExt
            = some Hook.rawDirectLoader) := by
  constructor
  · intro srcs h
    constructor
    · simp [loadCompilerSources, h]
    · intro ext
      simp only [loadCompilerSources, h, ModuleState.extLookup]
      exact restore_lookup exts jsExt Hook.rawDirectLoader ext
  · intro e h
    constructor
    · simp [loadCompilerSources, h]
    · simp [loadCompilerSources, h, ModuleState.extLookup, getExtension_setSome]

/-- Witness for the amended C2 theorem at a concrete instance: after a
successful guarded load over a pre-installed hook, the `.js` lookup is
what it was before. -/
theorem loadCompilerSources_hook_restore_witness :
    (loadCompilerSources reqOkW "/path/solc.js"
        ⟨some [(".js", Hook.externalHook 0)]⟩).1 = .ok 7
    ∧ (loadCompilerSources reqOkW "/path/solc.js"
        ⟨some [(".js", Hook.externalHook 0)]⟩).2.extLookup jsExt
      = ModuleState.extLookup ⟨some [(".js", Hook.externalHook 0)]⟩ jsExt :=
  ⟨((loadCompilerSources_hook_restore reqOkW "/path/solc.js"
      [(".js", Hook.externalHook 0)]).1 7 rfl).1,
   ((loadCompilerSources_hook_restore reqOkW "/path/solc.js"
      [(".js", Hook.externalHook 0)]).1 7 rfl).2 jsExt⟩

/-- Cache hit: with a loaded handle present, `getSolc` answers it and
leaves the state untouched (no load). -/
theorem Compiler.getSolc_cached (req : String → Option Hook → Except JsError SolcSources)
    (wrap : SolcSources → Solc) (c : Compiler) (st : CompilerState) (s : Solc)
    (h : st.loadedSolc = some s) :
    Compiler.getSolc req wrap c st = (.ok s, st) := by
  simp [Compiler.getSolc, h]

/-- First successful call: starting with an empty cache, a `getSolc` call
that answers `.ok s` leaves the handle cached and one more load counted. -/
theorem Compiler.getSolc_first (req : String → Option Hook → Except JsError SolcSources)
    (wrap : SolcSources → Solc) (c : Compiler) (ms : ModuleState) (n : Nat) (s : Solc)
    (h : (Compiler.getSolc req wrap c ⟨none, ms, n⟩).1 = .ok s) :
    (Compiler.getSolc req wrap c ⟨none, ms, n⟩).2.loadedSolc = some s
    ∧ (Compiler.getSolc req wrap c ⟨none, ms, n⟩).2.loadCount = n + 1 := by
  cases hl : loadCompilerSources req c.pathToSolcJs ms with
  | mk r mst1 =>
    cases r with
    | error e =>
      have he : (Compiler.getSolc req wrap c ⟨none, ms, n⟩).1 = .error e := by
        simp [Compiler.getSolc, hl]
      rw [he] at h
      simp at h
    | ok srcs =>
      have hok : Compiler.getSolc req wrap c ⟨none, ms, n⟩
          = (.ok (wrap srcs), ⟨some (wrap srcs), mst1, n + 1⟩) := by
        simp [Compiler.getSolc, hl]
      rw [hok] at h ⊢
      simp only at h
      simp at h
      subst h
      exact ⟨rfl, rfl⟩

/-- Once the handle is cached, any number of further `getSolc` calls
leaves the state fixed. -/
theorem Compiler.stateAfter_stable (req : String → Option Hook → Except JsError SolcSources)
    (wrap : SolcSources → Solc) (c : Compiler) (st : CompilerState) (s : Solc)
    (h : st.loadedSolc = some s) :
    ∀ n, Compiler.stateAfterGetSolcCalls req wrap c st n = st := by
  intro n
  induction n with
  | zero => rfl
  | succ m ih =>
    simp only [Compiler.stateAfterGetSolcCalls, ih,
      Compiler.getSolc_cached req wrap c st s h]

/-- The state coming out of `compile` is exactly the state coming out of
its inner `getSolc` call: invoking the handle changes no instance state. -/
theorem Compiler.compile_state (req : String → Option Hook → Except JsError SolcSources)
    (wrap : SolcSources → Solc) (stringify : Json → String)
    (parse : String → Except JsError Json) (c : Compiler) (input : Json)
    (st : CompilerState) :
    (Compiler.compile req wrap stringify parse c input st).2
      = (Compiler.getSolc req wrap c st).2 := by
  cases hg : Compiler.getSolc req wrap c st with
  | mk r st1 =>
    cases r with
    | error e => simp [Compiler.compile, hg]
    | ok solc =>
      cases hc : solc.compileFn (stringify input) with
      | error e => simp [Compiler.compile, hg, hc]
      | ok txt => simp [Compiler.compile, hg, hc]

/-- C3: for one `Compiler` instance whose first `getSolc` call succeeds
with handle `s`, every one of `N ≥ 1` sequential `getSolc` calls returns
that same cached handle, exactly one underlying load happens over the `N`
calls, and likewise at most (exactly) one load happens over any `N`
sequential `compile` calls. -/
theorem getSolc_idempotent_single_load
    (req : String → Option Hook → Except JsError SolcSources)
    (wrap : SolcSources → Solc) (c : Compiler) (ms : ModuleState) (s : Solc)
    (h1 : (Compiler.getSolc req wrap c ⟨none, ms, 0⟩).1 = .ok s) :
    ∀ N, 1 ≤ N →
      (∀ k, k < N →
        (Compiler.getSolc req wrap c
          (Compiler.stateAfterGetSolcCalls req wrap c ⟨none, ms, 0⟩ k)).1 = .ok s)
      ∧ (Compiler.stateAfterGetSolcCalls req wrap c ⟨none, ms, 0⟩ N).loadCount = 1
      ∧ ∀ (stringify : Json → String) (parse : String → Except JsError Json)
          (inputs : Nat → Json),
          (Compiler.stateAfterCompileCalls req wrap stringify parse c inputs
            ⟨none, ms, 0⟩ N).loadCount = 1 := by
  obtain ⟨hcache, hcount⟩ := Compiler.getSolc_first req wrap c ms 0 s h1
  have hAfter : ∀ n, 1 ≤ n →
      Compiler.stateAfterGetSolcCalls req wrap c ⟨none, ms, 0⟩ n
        = (Compiler.getSolc req wrap c ⟨none, ms, 0⟩).2 := by
    intro n hn
    induction n with
    | zero => omega
    | succ m ih =>
      cases Nat.eq_zero_or_pos m with
      | inl hz =>
        subst hz
        rfl
      | inr hpos =>
        show (Compiler.getSolc req wrap c
          (Compiler.stateAfterGetSolcCalls req wrap c ⟨none, ms, 0⟩ m)).2 = _
        rw [ih hpos, Compiler.getSolc_cached req wrap c _ s hcache]
  have hcc : ∀ (stringify : Json → String) (parse : String → Except JsError Json)
      (inputs : Nat → Json) (n : Nat),
      Compiler.stateAfterCompileCalls req wrap stringify parse c inputs ⟨none, ms, 0⟩ n
        = Compiler.stateAfterGetSolcCalls req wrap c ⟨none, ms, 0⟩ n := by
    intro stringify parse inputs n
    induction n with
    | zero => rfl
    | succ m ih =>
      simp only [Compiler.stateAfterCompileCalls, Compiler.stateAfterGetSolcCalls, ih,
        Compiler.compile_state]
  intro N hN
  refine ⟨?_, ?_, ?_⟩
  · intro k hk
    cases k with
    | zero => exact h1
    | succ m =>
      rw [hAfter (m + 1) (by omega), Compiler.getSolc_cached req wrap c _ s hcache]
  · rw [hAfter N hN]
    exact hcount
  · intro stringify parse inputs
    rw [hcc stringify parse inputs N, hAfter N hN]
    exact hcount

/-- Compile entry point of the concrete loaded handle used in witnesses. -/
def solcW : Solc := ⟨fun s => .ok (s ++ "-out")⟩

/-- Wrapper `solc/wrapper` behaviour used in witnesses. -/
def wrapW : SolcSources → Solc := fun _ => solcW

/-- Witness for the C3 theorem at a concrete instance: three sequential
calls, same handle each time, one load. -/
theorem getSolc_idempotent_single_load_witness :
    (Compiler.getSolc reqOkW wrapW ⟨"/p/solc.js"⟩
      (Compiler.stateAfterGetSolcCalls reqOkW wrapW ⟨"/p/solc.js"⟩
        ⟨none, ⟨none⟩, 0⟩ 2)).1 = .ok solcW
    ∧ (Compiler.stateAfterGetSolcCalls reqOkW wrapW ⟨"/p/solc.js"⟩
        ⟨none, ⟨none⟩, 0⟩ 3).loadCount = 1
    ∧ (Compiler.stateAfterCompileCalls reqOkW wrapW stringifyW parseW ⟨"/p/solc.js"⟩
        (fun _ => Json.null) ⟨none, ⟨none⟩, 0⟩ 3).loadCount = 1 := by
  have h := getSolc_idempotent_single_load reqOkW wrapW ⟨"/p/solc.js"⟩ ⟨none⟩ solcW
    rfl 3 (by decide)
  exact ⟨h.1 2 (by decide), h.2.1, h.2.2 stringifyW parseW (fun _ => Json.null)⟩

/-- C4: `Compiler.compile` returns exactly the structural parse of the
text the loaded handle produced for the serialized input, with no retries:
a throwing compile call or a failing `getSolc` surfaces its error directly,
and a parse failure is whatever `parse` returns. -/
theorem compile_is_parse_of_invoke
    (req : String → Option Hook → Except JsError SolcSources)
    (wrap : SolcSources → Solc) (stringify : Json → String)
    (parse : String → Except JsError Json) (c : Compiler) (input : Json)
    (st : CompilerState) :
    (∀ solc, (Compiler.getSolc req wrap c st).1 = .ok solc →
      (∀ txt, solc.compileFn (stringify input) = .ok txt →
        (Compiler.compile req wrap stringify parse c input st).1 = parse txt)
      ∧ (∀ e, solc.compileFn (stringify input) = .error e →
        (Compiler.compile req wrap stringify parse c input st).1 = .error e))
    ∧ (∀ e, (Compiler.getSolc req wrap c st).1 = .error e →
      (Compiler.compile req wrap stringify parse c input st).1 = .error e) := by
  cases hg : Compiler.getSolc req wrap c st with
  | mk r st1 =>
    cases r with
    | error e0 =>
      constructor
      · intro solc hsolc
        simp at hsolc
      · intro e he
        simp at he
        subst he
        simp [Compiler.compile, hg]
    | ok solc0 =>
      constructor
      · intro solc hsolc
        simp at hsolc
        subst hsolc
        constructor
        · intro txt htxt
          simp [Compiler.compile, hg, htxt]
        · intro e he
          simp [Compiler.compile, hg, he]
      · intro e he
        simp at he

/-- Witness for the C4 theorem at a concrete instance: the result is the
parse of the handle's output for the serialized input. -/
theorem compile_is_parse_of_invoke_witness :
    (Compiler.compile reqOkW wrapW stringifyW parseW ⟨"/p/solc.js"⟩ Json.null
      ⟨none, ⟨none⟩, 0⟩).1 = parseW ("serialized-input" ++ "-out") :=
  ((compile_is_parse_of_invoke reqOkW wrapW stringifyW parseW ⟨"/p/solc.js"⟩ Json.null
      ⟨none, ⟨none⟩, 0⟩).1 solcW rfl).1 ("serialized-input" ++ "-out") rfl

/-- Verification-service URLs of a chain entry. -/
structure ChainUrls where
  apiURL : String
  browserURL : String
deriving DecidableEq

/-- Chain entry: a network name, a numeric chain id and its URLs. -/
structure ChainConfig where
  network : String
  chainId : Nat
  urls : ChainUrls
deriving DecidableEq

/-- Failures of chain resolution. -/
inductive ChainResolutionError where
  | networkNotSupported (networkName : String)
  | chainConfigNotFound (chainId : Nat)
deriving DecidableEq

/-- User-visible message of a chain-resolution failure; the no-match case
names the observed chain id. -/
def ChainResolutionError.message : ChainResolutionError → String
  | .networkNotSupported n =>
    "The selected network is " ++ n
      ++ ". Please select a network supported by Etherscan."
  | .chainConfigNotFound chainId =>
    "Trying to verify a contract in a network with chain id " ++ toString chainId
      ++ ", but the plugin does not recognize it as a supported chain."

/-- Name reserved for the local development network. -/
def HARDHAT_NETWORK_NAME : String := "hardhat"

/-- Modelled from the spec: the implementation of
`Etherscan.getCurrentChainConfig` is not among the provided sources (only
its unit tests are), so this follows the spec's resolution policy: prefer
the last matching custom-chain entry (by the numeric chain id observed on
the network) over built-in entries; if nothing matches and the network
name is the reserved local-development network — i.e. no custom entry
declared it explicitly, since such an entry would have matched its id —
fail with the network-not-supported error; if nothing matches otherwise,
fail naming the observed chain id. -/
def getCurrentChainConfig (networkName : String) (observedChainId : Nat)
    (customChains : List ChainConfig) (builtinChains : List ChainConfig) :
    Except ChainResolutionError ChainConfig :=
  match (customChains.reverse ++ builtinChains).find?
      (fun c => c.chainId == observedChainId) with
  | some cfg => .ok cfg
  | none =>
    if networkName == HARDHAT_NETWORK_NAME then
      .error (.networkNotSupported networkName)
    else
      .error (.chainConfigNotFound observedChainId)

/-- Whether chain resolution failed. -/
def chainResolutionFailed : Except ChainResolutionError ChainConfig → Bool
  | .error _ => true
  | .ok _ => false

/-- URLs shared by the test's custom chains. -/
def testUrls : ChainUrls := ⟨"<api-url>", "<browser-url>"⟩

/-- Custom chain named customChain1 with id 5000. -/
def customChain1 : ChainConfig := ⟨"customChain1", 5000, testUrls⟩

/-- Custom chain named customChain2 with id 5000. -/
def customChain2 : ChainConfig := ⟨"customChain2", 5000, testUrls⟩

/-- Custom chain named customChain3 with id 4999. -/
def customChain3 : ChainConfig := ⟨"customChain3", 4999, testUrls⟩

/-- Custom chain list of the unit tests. -/
def testCustomChains : List ChainConfig := [customChain1, customChain2, customChain3]

/-- Built-in goerli entry used by the unit tests. -/
def goerliChain : ChainConfig :=
  ⟨"goerli", 5, ⟨"https://api-goerli.etherscan.io/api", "https://goerli.etherscan.io"⟩⟩

/-- C8: with the test's custom chains and an observed id of 5000,
resolution returns the entry named customChain2 — the last matching custom
entry — whatever the builtin table is; and whenever no custom entry
matches the observed id, the matching builtin entry is returned. -/
theorem getCurrentChainConfig_last_custom_wins (builtins : List ChainConfig) :
    (getCurrentChainConfig "customChain2" 5000 testCustomChains builtins
        = .ok customChain2
      ∧ customChain2.network = "customChain2")
    ∧ ∀ (networkName : String) (observedChainId : Nat)
        (customChains : List ChainConfig) (cfg : ChainConfig),
        (∀ c ∈ customChains, c.chainId ≠ observedChainId) →
        builtins.find? (fun c => c.chainId == observedChainId) = some cfg →
        getCurrentChainConfig networkName observedChainId customChains builtins
          = .ok cfg := by
  constructor
  · exact ⟨rfl, rfl⟩
  · intro networkName observedChainId customChains cfg hnone hfind
    have hcnone : customChains.reverse.find? (fun c => c.chainId == observedChainId)
        = none := by
      rw [List.find?_eq_none]
      intro x hx
      have hne := hnone x (List.mem_reverse.mp hx)
      simpa using hne
    simp [getCurrentChainConfig, List.find?_append, hcnone, hfind]

/-- Witness for the C8 theorem at a concrete instance: the builtin goerli
entry is returned when no custom chain matches id 5. -/
theorem getCurrentChainConfig_last_custom_wins_witness :
    getCurrentChainConfig "goerli" 5 testCustomChains [goerliChain] = .ok goerliChain :=
  (getCurrentChainConfig_last_custom_wins [goerliChain]).2 "goerli" 5 testCustomChains
    goerliChain (by decide) rfl

/-- C9: resolution fails exactly when no entry (custom or builtin) matches
the observed chain id; in that case, with the reserved local-development
network name the failure is the network-not-supported error, and with any
other name it is the not-found error whose message names the observed
chain id. -/
theorem getCurrentChainConfig_failure_cases :
    (∀ (networkName : String) (observedChainId : Nat)
        (customChains builtinChains : List ChainConfig),
        chainResolutionFailed
            (getCurrentChainConfig networkName observedChainId customChains
              builtinChains) = true
        ↔ (customChains.reverse ++ builtinChains).find?
            (fun c => c.chainId == observedChainId) = none)
    ∧ (∀ (observedChainId : Nat) (customChains builtinChains : List ChainConfig),
        (customChains.reverse ++ builtinChains).find?
            (fun c => c.chainId == observedChainId) = none →
        getCurrentChainConfig HARDHAT_NETWORK_NAME observedChainId customChains
            builtinChains
          = .error (.networkNotSupported HARDHAT_NETWORK_NAME))
    ∧ (∀ (networkName : String) (observedChainId : Nat)
        (customChains builtinChains : List ChainConfig),
        (customChains.reverse ++ builtinChains).find?
            (fun c => c.chainId == observedChainId) = none →
        networkName ≠ HARDHAT_NETWORK_NAME →
        getCurrentChainConfig networkName observedChainId customChains builtinChains
          = .error (.chainConfigNotFound observedChainId)
        ∧ (ChainResolutionError.chainConfigNotFound observedChainId).message
          = "Trying to verify a contract in a network with chain id "
            ++ toString observedChainId
            ++ ", but the plugin does not recognize it as a supported chain.") := by
  refine ⟨?_, ?_, ?_⟩
  · intro networkName observedChainId customChains builtinChains
    cases hf : (customChains.reverse ++ builtinChains).find?
        (fun c => c.chainId == observedChainId) with
    | some cfg => simp [getCurrentChainConfig, hf, chainResolutionFailed]
    | none =>
      by_cases hn : networkName = HARDHAT_NETWORK_NAME
      · simp [getCurrentChainConfig, hf, hn, chainResolutionFailed]
      · simp [getCurrentChainConfig, hf, hn, chainResolutionFailed]
  · intro observedChainId customChains builtinChains hf
    simp [getCurrentChainConfig, hf]
  · intro networkName observedChainId customChains builtinChains hf hne
    exact ⟨by simp [getCurrentChainConfig, hf, hne], rfl⟩

/-- Witness for the C9 theorem at concrete instances mirroring the unit
tests: id 31337 as hardhat without a custom entry, and an unknown id. -/
theorem getCurrentChainConfig_failure_cases_witness :
    getCurrentChainConfig "hardhat" 31337 testCustomChains [goerliChain]
      = .error (.networkNotSupported "hardhat")
    ∧ getCurrentChainConfig "someNetwork" 21343214123 testCustomChains [goerliChain]
      = .error (.chainConfigNotFound 21343214123) :=
  ⟨getCurrentChainConfig_failure_cases.2.1 31337 testCustomChains [goerliChain] rfl,
   (getCurrentChainConfig_failure_cases.2.2 "someNetwork" 21343214123 testCustomChains
      [goerliChain] rfl (by decide)).1⟩
